import Mathlib

/-!
Verification development for a retrieval-augmented-generation (RAG) system:
a PDF retrieval pipeline (`src/pdf_rag_pipeline.py`), an LLM prompt builder
(`src/llm_pipeline.py`) and a stateful feedback ledger
(`src/telegram_rag_bot.py`).  The Python classes are shallowly embedded:
object state becomes explicit state records, the external collaborators
(pdfplumber / pdfminer page extraction, the BM25 scoring arithmetic, the
text-generation model, the chat transport) become explicit inputs, and the
`while` loop of the chunker becomes a fuel-indexed function whose `none`
result records non-termination of the source loop.
-/

namespace PDFRAGPipeline

/-- A page dictionary as built by the extraction methods:
`{"page": номер, "text": текст страницы}`. -/
structure Page where
  page : Nat
  text : String
deriving DecidableEq, Repr

/-- A chunk dictionary as built by `split_pages`:
`{"page": page["page"], "chunk": chunk_text}`. -/
structure Chunk where
  page : Nat
  chunk : String
deriving DecidableEq, Repr

/-- The mutable state of a `PDFRAGPipeline` object.  `raw` stands for the
document behind `pdf_path`: the per-physical-page result of the extraction
collaborator (`page.extract_text()`), where `none` is Python `None`.
`pages`, `chunks` and `bm25` start as `None` and are filled lazily; the
built BM25 index is represented by the tokenized corpus it is constructed
from (`tokenized_chunks`), its scoring arithmetic being external. -/
structure PipelineState where
  raw : List (Option String)
  chunk_size : Nat
  overlap : Nat
  pages : Option (List Page)
  chunks : Option (List Chunk)
  bm25 : Option (List (List String))
deriving DecidableEq, Repr

/-- Embedding of `PDFRAGPipeline.__init__`.  The constructor only stores its
arguments; it contains no validation and no `raise`, so the explicit error
channel is always `.ok`. -/
def init (raw : List (Option String)) (chunk_size overlap : Nat) :
    Except String PipelineState :=
  .ok { raw := raw, chunk_size := chunk_size, overlap := overlap,
        pages := none, chunks := none, bm25 := none }

/-- Accumulator loop for `splitWords`: collect maximal non-whitespace runs. -/
def wordsAux : List Char → List Char → List String
  | [], acc => if acc.isEmpty then [] else [String.mk acc.reverse]
  | c :: cs, acc =>
    if c.isWhitespace then
      (if acc.isEmpty then [] else [String.mk acc.reverse]) ++ wordsAux cs []
    else wordsAux cs (c :: acc)

/-- Python `str.split()` with no separator: split on whitespace runs,
dropping empty pieces. -/
def splitWords (s : String) : List String :=
  wordsAux s.toList []

/-- Python `str.strip()`: remove leading and trailing whitespace. -/
def pyStrip (s : String) : String :=
  String.mk (((s.toList.dropWhile Char.isWhitespace).reverse.dropWhile
    Char.isWhitespace).reverse)

/-- The loop body of `extract_pages` (and of `extract_pages_pypdf2`, which is
identical in shape): for each physical page `i`, keep
`{"page": i + 1, "text": text.strip()}` when `text` is truthy — i.e. not
`None` and not the empty string.  The truthiness test runs on the raw text,
before `strip()`. -/
def extract_pages_list (raw : List (Option String)) : List Page :=
  raw.enum.filterMap (fun pr =>
    match pr.2 with
    | none => none
    | some t => if t = "" then none else some { page := pr.1 + 1, text := pyStrip t })

/-- Embedding of `PDFRAGPipeline.extract_pages`: assigns `self.pages` and
returns the list. -/
def extract_pages (st : PipelineState) : PipelineState × List Page :=
  let ps := extract_pages_list st.raw
  ({ st with pages := some ps }, ps)

/-- The form-feed character `'\f'` used by `extract_pages_pdfminer`. -/
def formFeed : Char := Char.ofNat 12

/-- `re.split(r'\f+', s)` over the character list of `s`: split on maximal
runs of form feeds, keeping boundary empty segments. -/
def splitFFAux : List Char → List Char → List String
  | [], acc => [String.mk acc.reverse]
  | c :: cs, acc =>
    if c = formFeed then
      String.mk acc.reverse :: splitFFAux (cs.dropWhile (fun d => d = formFeed)) []
    else
      splitFFAux cs (c :: acc)
termination_by cs _ => cs.length
decreasing_by
  · have h := (List.dropWhile_sublist (l := cs) (p := fun d => decide (d = formFeed))).length_le
    simp only [List.length_cons]
    omega
  · simp

/-- The loop body of `extract_pages_pdfminer`: split the full text on runs of
form feeds, strip each segment, keep `{"page": i + 1, "text": text}` when the
stripped text is nonempty.  Here the strip happens before the truthiness
test. -/
def extract_pages_pdfminer_list (full_text : String) : List Page :=
  let raw_pages := splitFFAux full_text.toList []
  raw_pages.enum.filterMap (fun pr =>
    let text := pyStrip pr.2
    if text = "" then none else some { page := pr.1 + 1, text := text })

/-- Embedding of `PDFRAGPipeline.extract_pages_pdfminer`. -/
def extract_pages_pdfminer (st : PipelineState) (full_text : String) :
    PipelineState × List Page :=
  let ps := extract_pages_pdfminer_list full_text
  ({ st with pages := some ps }, ps)

/-- The `while start < len(words)` loop of `split_pages`, indexed by fuel.
Each iteration takes `words[start : start + cs]`, joins with single spaces,
appends the joined text when longer than 20 characters, and advances `start`
by `step`.  A `none` result means the fuel ran out, i.e. the source loop did
not terminate within that many iterations; for `step ≥ 1` a fuel of
`words.length + 1` always suffices.  In the source `step` is the Python int
`chunk_size - overlap`; when that difference is ≤ 0 the loop never
terminates, which the embedding reproduces with the truncated `step = 0`
(the chunks accumulated along a divergent run are never observable). -/
def chunkLoopFuel (cs step : Nat) (words : List String) : Nat → Nat → Option (List String)
  | 0, _ => none
  | fuel + 1, start =>
    if start < words.length then
      match chunkLoopFuel cs step words fuel (start + step) with
      | none => none
      | some rest =>
        let chunk_text := " ".intercalate ((words.drop start).take cs)
        some (if chunk_text.length > 20 then chunk_text :: rest else rest)
    else
      some []

/-- The chunks one page contributes in `split_pages`, tagged with the page
number. -/
def pageChunks (cs step : Nat) (p : Page) : Option (List Chunk) :=
  let words := splitWords p.text
  (chunkLoopFuel cs step words (words.length + 1) 0).map
    (fun ts => ts.map (fun t => { page := p.page, chunk := t }))

/-- The `for page in self.pages` loop of `split_pages`, accumulating
`all_chunks` page-major; `none` as soon as one page's loop diverges. -/
def allPagesChunks (cs step : Nat) : List Page → Option (List Chunk)
  | [] => some []
  | p :: ps =>
    match pageChunks cs step p, allPagesChunks cs step ps with
    | some c, some rest => some (c ++ rest)
    | _, _ => none

/-- Embedding of `PDFRAGPipeline.split_pages`: extract pages first when
`self.pages is None`, then chunk every page and assign `self.chunks`. -/
def split_pages (st : PipelineState) : Option (PipelineState × List Chunk) :=
  let st1 := if st.pages.isNone then (extract_pages st).1 else st
  let ps := st1.pages.getD []
  let step := st.chunk_size - st.overlap
  match allPagesChunks st.chunk_size step ps with
  | none => none
  | some cs => some ({ st1 with chunks := some cs }, cs)

/-- Embedding of `PDFRAGPipeline.build_index`: chunk first when
`self.chunks is None`, tokenize each chunk text with `str.split()`, and store
the tokenized corpus as the built index. -/
def build_index (st : PipelineState) : Option (PipelineState × List (List String)) :=
  match (if st.chunks.isNone then (split_pages st).map (fun pr => pr.1) else some st) with
  | none => none
  | some st1 =>
    let tokenized := (st1.chunks.getD []).map (fun c => splitWords c.chunk)
    some ({ st1 with bm25 := some tokenized }, tokenized)

/-- `sorted(range(len(scores)), key=lambda i: scores[i], reverse=True)`.
CPython's `sorted` is a stable sort, also with `reverse=True`; on the
strictly ascending input `range(n)` a stable descending sort returns the
indices ordered by the linear order "higher score first, equal scores by
ascending index", which is the comparator given to `mergeSort` here. -/
def pyArgsortDesc (scores : List ℚ) : List Nat :=
  (List.range scores.length).mergeSort (fun i j =>
    decide (scores.getD j 0 < scores.getD i 0 ∨
      (scores.getD i 0 = scores.getD j 0 ∧ i ≤ j)))

/-- Embedding of `PDFRAGPipeline.search_query`.  The BM25 scoring arithmetic
(`self.bm25.get_scores`) is an external collaborator over floats; it assigns
one score per indexed document, so it is abstracted by a per-document score
function `scoreDoc query_tokens doc` with exact rational values.  Out-of-range
chunk indexing (which would raise in the source) is replaced by a default;
it cannot occur while the index matches the stored corpus. -/
def search_query (scoreDoc : List String → List String → ℚ)
    (st : PipelineState) (query : String) (top_k : Nat) :
    Option (PipelineState × List Chunk) :=
  match (if st.bm25.isNone then (build_index st).map (fun pr => pr.1) else some st) with
  | none => none
  | some st1 =>
    let query_tokens := splitWords query
    let scores := (st1.bm25.getD []).map (scoreDoc query_tokens)
    let top_indices := (pyArgsortDesc scores).take top_k
    let results := top_indices.map (fun i => (st1.chunks.getD []).getD i { page := 0, chunk := "" })
    some (st1, results)

/-! Specification-side chunking, following the words of the spec (§4.2 and
the C3 claim): window offsets `0, step, 2·step, ...` with
`step = window − overlap`, stopping when the window start reaches the word
count; each window's words joined with single spaces; chunks of joined
length ≤ 20 dropped.  These definitions exist to be compared with the
source-derived `split_pages` above. -/

/-- The window start offsets `start, start + step, start + 2·step, ...`
strictly below `count`. -/
def specOffsets (step count : Nat) (hstep : 0 < step) (start : Nat) : List Nat :=
  if start < count then start :: specOffsets step count hstep (start + step) else []
termination_by count - start
decreasing_by omega

/-- The chunks of one page's text according to the spec's sliding-window
rule, for a configuration with `overlap < window`. -/
def specWindows (ww ow : Nat) (how : ow < ww) (text : String) : List String :=
  let ws := splitWords text
  ((specOffsets (ww - ow) ws.length (by omega) 0).map
      (fun s => " ".intercalate ((ws.drop s).take ww))).filter
    (fun t => t.length > 20)

/-- All chunks of a page sequence according to the spec: page-major order,
each chunk tagged with its page's number. -/
def specChunks (ww ow : Nat) (how : ow < ww) (ps : List Page) : List Chunk :=
  ps.flatMap (fun p => (specWindows ww ow how p.text).map
    (fun t => { page := p.page, chunk := t }))

end PDFRAGPipeline

namespace TelegramRAGBot

/-- The `feedback` field of a QA-log record: Python `None`, `"yes"` or
`"no"`. -/
inductive Feedback where
  | unset
  | yes
  | no
deriving DecidableEq, Repr

/-- The `retrieved_page` field: `retrieval_result.get("page", "Unknown")` is
a page number when the key is present and the string `"Unknown"`
otherwise. -/
inductive PageRef where
  | page (n : Nat)
  | unknown
deriving DecidableEq, Repr

/-- One QA-log record as built in `answer_query`. -/
structure QARecord where
  query : String
  retrieval_context : String
  retrieved_page : PageRef
  generated_answer : String
  feedback : Feedback
deriving DecidableEq, Repr

/-- `self.stats = {"total": 0, "correct": 0, "incorrect": 0}`. -/
structure Stats where
  total : Nat
  correct : Nat
  incorrect : Nat
deriving DecidableEq, Repr

/-- The ledger state of a `TelegramRAGBot`: the stats dictionary and the
QA log. -/
structure BotState where
  stats : Stats
  qa_log : List QARecord
deriving DecidableEq, Repr

/-- The ledger state right after `__init__`. -/
def initBot : BotState :=
  { stats := { total := 0, correct := 0, incorrect := 0 }, qa_log := [] }

/-- The reply sent from the `except` branch of `answer_query`. -/
def errorReply : String := "Произошла ошибка при обработке запроса. Попробуйте позже."

/-- Embedding of `TelegramRAGBot.answer_query` on the ledger state.  The
retrieval result (`ctx`, `page`) and the outcome of the
`llm_pipeline.generate_answer` call are explicit inputs; an `.error` value
stands for any exception raised inside the `try` block up to and including
generation (collaborator unreachable, malformed output), which the
`except` branch catches.  `self.stats["total"] += 1` and the QA-log append
both happen only after a successful generation. -/
def answer_query (st : BotState) (q ctx : String) (page : PageRef)
    (gen : Except Unit String) : BotState × String :=
  match gen with
  | .error _ => (st, errorReply)
  | .ok answer =>
    ({ stats := { st.stats with total := st.stats.total + 1 },
       qa_log := st.qa_log ++
         [{ query := q, retrieval_context := ctx, retrieved_page := page,
            generated_answer := answer, feedback := .unset }] },
     "Ответ (retrieved from page ...):\n" ++ answer ++ "\n\nОцените, верный ли ответ:")

/-- Embedding of `TelegramRAGBot.feedback_callback`.  `cb_data` is the
callback payload (`"feedback_yes"` or `"feedback_no"`).  The source
increments `stats["correct"]` / `stats["incorrect"]` unconditionally; only
the update of the last record's `feedback` field is guarded by
`if self.qa_log and self.qa_log[-1]["feedback"] is None`. -/
def feedback_callback (st : BotState) (cb_data : String) : BotState × String :=
  let isYes := cb_data = "feedback_yes"
  let stats :=
    if isYes then { st.stats with correct := st.stats.correct + 1 }
    else { st.stats with incorrect := st.stats.incorrect + 1 }
  let response :=
    if isYes then "Спасибо за обратную связь! Рад, что ответ верный."
    else "Спасибо за обратную связь! Мы учтём это для улучшения."
  let feedback_value : Feedback := if isYes then .yes else .no
  let log :=
    match st.qa_log.getLast? with
    | some r =>
      if r.feedback = .unset then
        st.qa_log.dropLast ++ [{ r with feedback := feedback_value }]
      else st.qa_log
    | none => st.qa_log
  ({ stats := stats, qa_log := log }, response)

/-- One inbound event of the single-writer transport: a text message (with
the retrieval result and generation outcome it leads to) or a feedback
button press. -/
inductive BotEvent where
  | message (q ctx : String) (page : PageRef) (gen : Except Unit String)
  | feedback (cb_data : String)

/-- The ledger transition of one event. -/
def stepBot (st : BotState) : BotEvent → BotState
  | .message q ctx page gen => (answer_query st q ctx page gen).1
  | .feedback d => (feedback_callback st d).1

/-- The ledger state after a sequence of events from the initial state. -/
def runBot (evs : List BotEvent) : BotState :=
  evs.foldl stepBot initBot

/-- The number of feedback events in an event sequence. -/
def countFb : List BotEvent → Nat
  | [] => 0
  | .feedback _ :: evs => countFb evs + 1
  | .message _ _ _ _ :: evs => countFb evs

/-! Persistence.  `save_stats` / `save_qa_log` write `self.stats` /
`self.qa_log` with `json.dump`; `load_stats` / `load_qa_log` replace them
with the result of `json.load`.  The byte-level JSON encoding is the json
library's (an external collaborator); the durable artifact is modeled as the
JSON value written. -/

/-- A JSON value. -/
inductive Json where
  | null
  | str (s : String)
  | num (n : Int)
  | arr (xs : List Json)
  | obj (fields : List (String × Json))

/-- The JSON value of a `feedback` field. -/
def encodeFeedback : Feedback → Json
  | .unset => .null
  | .yes => .str "yes"
  | .no => .str "no"

/-- Reading a `feedback` field back from JSON. -/
def decodeFeedback : Json → Option Feedback
  | .null => some .unset
  | .str s => if s = "yes" then some .yes else if s = "no" then some .no else none
  | _ => none

/-- The JSON value of a `retrieved_page` field. -/
def encodePageRef : PageRef → Json
  | .page n => .num n
  | .unknown => .str "Unknown"

/-- Reading a `retrieved_page` field back from JSON. -/
def decodePageRef : Json → Option PageRef
  | .num n => if n < 0 then none else some (.page n.toNat)
  | .str s => if s = "Unknown" then some .unknown else none
  | _ => none

/-- A non-negative JSON number. -/
def jNat : Option Json → Option Nat
  | some (.num n) => if n < 0 then none else some n.toNat
  | _ => none

/-- A JSON string. -/
def jStr : Option Json → Option String
  | some (.str s) => some s
  | _ => none

/-- The JSON object `json.dump(self.stats, ...)` writes. -/
def encodeStats (s : Stats) : Json :=
  .obj [("total", .num s.total), ("correct", .num s.correct),
        ("incorrect", .num s.incorrect)]

/-- Reading a stats object back into the typed state.  The source performs
no shape validation (`self.stats = json.load(f)`); a `none` here corresponds
to an artifact that does not describe a stats dictionary. -/
def decodeStats (j : Json) : Option Stats :=
  match j with
  | .obj fields =>
    match jNat (fields.lookup "total"), jNat (fields.lookup "correct"),
        jNat (fields.lookup "incorrect") with
    | some t, some c, some i => some { total := t, correct := c, incorrect := i }
    | _, _, _ => none
  | _ => none

/-- The JSON object of one QA-log record. -/
def encodeQARecord (r : QARecord) : Json :=
  .obj [("query", .str r.query),
        ("retrieval_context", .str r.retrieval_context),
        ("retrieved_page", encodePageRef r.retrieved_page),
        ("generated_answer", .str r.generated_answer),
        ("feedback", encodeFeedback r.feedback)]

/-- Reading one QA-log record back from JSON. -/
def decodeQARecord (j : Json) : Option QARecord :=
  match j with
  | .obj fields =>
    match jStr (fields.lookup "query"), jStr (fields.lookup "retrieval_context"),
        (fields.lookup "retrieved_page").bind decodePageRef,
        jStr (fields.lookup "generated_answer"),
        (fields.lookup "feedback").bind decodeFeedback with
    | some q, some c, some p, some a, some f =>
      some { query := q, retrieval_context := c, retrieved_page := p,
             generated_answer := a, feedback := f }
    | _, _, _, _, _ => none
  | _ => none

/-- Reading a list of QA-log records back from JSON values. -/
def decodeQAList : List Json → Option (List QARecord)
  | [] => some []
  | j :: js =>
    match decodeQARecord j, decodeQAList js with
    | some r, some rs => some (r :: rs)
    | _, _ => none

/-- Embedding of `TelegramRAGBot.save_stats`: the JSON artifact written. -/
def save_stats (st : BotState) : Json :=
  encodeStats st.stats

/-- Embedding of `TelegramRAGBot.load_stats`: replace `self.stats` with the
loaded value; an unreadable artifact leaves the previous state in place. -/
def load_stats (st : BotState) (j : Json) : BotState :=
  match decodeStats j with
  | some s => { st with stats := s }
  | none => st

/-- Embedding of `TelegramRAGBot.save_qa_log`: the JSON artifact written. -/
def save_qa_log (st : BotState) : Json :=
  .arr (st.qa_log.map encodeQARecord)

/-- Embedding of `TelegramRAGBot.load_qa_log`: replace `self.qa_log` with
the loaded value; an unreadable artifact leaves the previous state in
place. -/
def load_qa_log (st : BotState) (j : Json) : BotState :=
  match j with
  | .arr xs =>
    match decodeQAList xs with
    | some rs => { st with qa_log := rs }
    | none => st
  | _ => st

end TelegramRAGBot

namespace LLMPipeline

/-- The f-string prompt built inside `LLMPipeline.generate_answer` from the
query and the retrieval context. -/
def generate_answer_prompt (query context : String) : String :=
  "Use the following context extracted from the document to answer the question.\nIf the answer is not contained in the context, say \"I don\x27t know.\"\n\nContext:\n"
    ++ context
    ++ "\n\nQuestion:\n"
    ++ query
    ++ "\n\nAnswer:"

/-- The fixed grounding instruction inside the prompt. -/
def dontKnowInstruction : String :=
  "If the answer is not contained in the context, say \"I don\x27t know.\""

end LLMPipeline

/-! Concrete states used by witnesses and counterexamples. -/

namespace TelegramRAGBot

/-- A message event whose retrieval and generation both succeed. -/
def evMsg : BotEvent := .message "q" "ctx" (.page 1) (.ok "a")

/-- A press of the "Верный" feedback button. -/
def evFbYes : BotEvent := .feedback "feedback_yes"

/-- The QA record produced by `evMsg` after `evFbYes` rated it. -/
def recRated : QARecord :=
  { query := "q", retrieval_context := "ctx", retrieved_page := .page 1,
    generated_answer := "a", feedback := .yes }

end TelegramRAGBot

namespace PDFRAGPipeline

/-- Scenario C of the spec: a 5-word page; each word has 10 characters, so
every 3-word window passes the 20-character filter. -/
def pageScenarioC : Page :=
  { page := 1, text := "aaaaaaaaaa bbbbbbbbbb cccccccccc dddddddddd eeeeeeeeee" }

/-- A pipeline over the scenario-C page with window 3, overlap 1. -/
def stScenarioC : PipelineState :=
  { raw := [], chunk_size := 3, overlap := 1,
    pages := some [pageScenarioC], chunks := none, bm25 := none }

/-- An invalid configuration: overlap 5 exceeds window 3, over a one-page
document that still needs extraction. -/
def stBadConfig : PipelineState :=
  { raw := [some "alpha beta gamma delta epsilon words enough"],
    chunk_size := 3, overlap := 5, pages := none, chunks := none, bm25 := none }

/-- The same invalid configuration with the pages already extracted. -/
def stBadConfigPages : PipelineState :=
  { raw := [some "alpha beta gamma delta epsilon words enough"],
    chunk_size := 3, overlap := 5,
    pages := some [{ page := 1, text := "alpha beta gamma delta epsilon words enough" }],
    chunks := none, bm25 := none }

/-- A pipeline with a two-chunk corpus and its built index. -/
def stSearch : PipelineState :=
  { raw := [], chunk_size := 1000, overlap := 50, pages := none,
    chunks := some [{ page := 1, chunk := "aaa" }, { page := 2, chunk := "bbb" }],
    bm25 := some [["aaa"], ["bbb"]] }

end PDFRAGPipeline

/-! ## Theorems -/

namespace TelegramRAGBot

/-- C7: if the call into the text-generation collaborator fails, the
query-handling operation creates no QARecord, leaves the whole ledger state
(total, correct, incorrect, QA log) unchanged, and surfaces the failure as
the error reply. -/
theorem generation_failure_atomic (st : BotState) (q ctx : String)
    (page : PageRef) (e : Unit) :
    answer_query st q ctx page (.error e) = (st, errorReply) := rfl

theorem jNat_encode (n : Nat) : jNat (some (.num (n : Int))) = some n := by
  show (if ((n : Int) < 0) then (none : Option Nat) else some ((n : Int)).toNat) = some n
  rw [if_neg (by omega)]
  simp

theorem decodeStats_encode (s : Stats) : decodeStats (encodeStats s) = some s := by
  cases s with
  | mk t c i => simp [encodeStats, decodeStats, List.lookup, jNat_encode]

theorem decodePageRef_encode (p : PageRef) :
    decodePageRef (encodePageRef p) = some p := by
  cases p with
  | page n =>
    show (if ((n : Int) < 0) then none else some (PageRef.page ((n : Int)).toNat))
        = some (.page n)
    rw [if_neg (by omega)]
    simp
  | unknown => rfl

theorem decodeFeedback_encode (f : Feedback) :
    decodeFeedback (encodeFeedback f) = some f := by
  cases f <;> rfl

theorem decodeQARecord_encode (r : QARecord) :
    decodeQARecord (encodeQARecord r) = some r := by
  cases r with
  | mk q c p a f =>
    simp [encodeQARecord, decodeQARecord, jStr, List.lookup,
      decodePageRef_encode, decodeFeedback_encode]

theorem decodeQAList_encode (rs : List QARecord) :
    decodeQAList (rs.map encodeQARecord) = some rs := by
  induction rs with
  | nil => rfl
  | cons r rs ih => simp [decodeQAList, decodeQARecord_encode, ih]

/-- C8: saving the stats and the QA log and loading both into a fresh ledger
reproduces an identical snapshot — the same total/correct/incorrect counters
and the same ordered record sequence with all fields equal. -/
theorem persistence_round_trip (st fresh : BotState) :
    load_qa_log (load_stats fresh (save_stats st)) (save_qa_log st) = st := by
  cases st with
  | mk stats log =>
    simp [load_qa_log, load_stats, save_stats, save_qa_log,
      decodeStats_encode, decodeQAList_encode]

/-- C1 counterexample: after one answered query followed by one feedback
event the sole record is already rated; a second feedback event nevertheless
changes the stats (it increments `correct` again), so the claimed
conflict-signalling no-op is false on the code. -/
theorem feedback_double_count_counterexample :
    (runBot [evMsg, evFbYes]).qa_log.getLast?.map (fun r => r.feedback)
        = some .yes ∧
    (feedback_callback (runBot [evMsg, evFbYes]) "feedback_yes").1.stats
        ≠ (runBot [evMsg, evFbYes]).stats := by
  decide

/-- C1 amended: a feedback event targeting an already-rated record leaves
every record of the QA log unchanged, but still increments `Stats.correct`
(for `feedback_yes`) or `Stats.incorrect` (otherwise), and replies with the
ordinary thanks message rather than any conflict signal. -/
theorem feedback_second_event_behavior (st : BotState) (r : QARecord) (d : String)
    (hlast : st.qa_log.getLast? = some r) (hrated : r.feedback ≠ .unset) :
    (feedback_callback st d).1.qa_log = st.qa_log ∧
    (feedback_callback st d).1.stats =
      (if d = "feedback_yes" then { st.stats with correct := st.stats.correct + 1 }
       else { st.stats with incorrect := st.stats.incorrect + 1 }) ∧
    (feedback_callback st d).2 =
      (if d = "feedback_yes" then "Спасибо за обратную связь! Рад, что ответ верный."
       else "Спасибо за обратную связь! Мы учтём это для улучшения.") := by
  simp [feedback_callback, hlast, hrated]

theorem feedback_second_event_behavior_witness :
    ((runBot [evMsg, evFbYes]).qa_log.getLast? = some recRated ∧
      recRated.feedback ≠ .unset) ∧
    ((feedback_callback (runBot [evMsg, evFbYes]) "feedback_no").1.qa_log
        = (runBot [evMsg, evFbYes]).qa_log ∧
     (feedback_callback (runBot [evMsg, evFbYes]) "feedback_no").1.stats =
       (if ("feedback_no" : String) = "feedback_yes"
        then { (runBot [evMsg, evFbYes]).stats with
                 correct := (runBot [evMsg, evFbYes]).stats.correct + 1 }
        else { (runBot [evMsg, evFbYes]).stats with
                 incorrect := (runBot [evMsg, evFbYes]).stats.incorrect + 1 }) ∧
     (feedback_callback (runBot [evMsg, evFbYes]) "feedback_no").2 =
       (if ("feedback_no" : String) = "feedback_yes"
        then "Спасибо за обратную связь! Рад, что ответ верный."
        else "Спасибо за обратную связь! Мы учтём это для улучшения.")) :=
  ⟨⟨by decide, by decide⟩,
    feedback_second_event_behavior (runBot [evMsg, evFbYes]) recRated "feedback_no"
      (by decide) (by decide)⟩

/-- C2 counterexample: the interleaving consisting of a single feedback event
(no answered query) already violates the claimed conservation invariant —
`correct + incorrect = 1` exceeds `total = 0`. -/
theorem ledger_conservation_counterexample :
    ¬ ((runBot [evFbYes]).stats.total = (runBot [evFbYes]).qa_log.length ∧
       (runBot [evFbYes]).stats.correct + (runBot [evFbYes]).stats.incorrect
         ≤ (runBot [evFbYes]).stats.total) := by
  decide

theorem stepBot_total_len {st : BotState} (ev : BotEvent)
    (h : st.stats.total = st.qa_log.length) :
    (stepBot st ev).stats.total = (stepBot st ev).qa_log.length := by
  cases ev with
  | message q ctx page gen =>
    cases gen with
    | error e => simpa [stepBot, answer_query] using h
    | ok a => simp [stepBot, answer_query, h]
  | feedback d =>
    cases hl : st.qa_log.getLast? with
    | none => simpa [stepBot, feedback_callback, hl, apply_ite Stats.total] using h
    | some r =>
      have hne : st.qa_log ≠ [] := by
        intro he; rw [he] at hl; simp at hl
      have hlen : 0 < st.qa_log.length := List.length_pos.mpr hne
      by_cases hf : r.feedback = .unset
      · simp [stepBot, feedback_callback, hl, hf, List.length_dropLast,
          apply_ite Stats.total]
        omega
      · simpa [stepBot, feedback_callback, hl, hf, apply_ite Stats.total] using h

theorem foldl_total (evs : List BotEvent) :
    ∀ st : BotState, st.stats.total = st.qa_log.length →
      (evs.foldl stepBot st).stats.total = (evs.foldl stepBot st).qa_log.length := by
  induction evs with
  | nil => intro st h; simpa using h
  | cons ev evs ih =>
    intro st h
    rw [List.foldl_cons]
    exact ih _ (stepBot_total_len ev h)

theorem stepBot_fb_sum (st : BotState) (d : String) :
    (stepBot st (.feedback d)).stats.correct
        + (stepBot st (.feedback d)).stats.incorrect
      = st.stats.correct + st.stats.incorrect + 1 := by
  by_cases hd : d = "feedback_yes" <;> simp [stepBot, feedback_callback, hd] <;> omega

theorem stepBot_msg_sum (st : BotState) (q ctx : String) (page : PageRef)
    (gen : Except Unit String) :
    (stepBot st (.message q ctx page gen)).stats.correct
        + (stepBot st (.message q ctx page gen)).stats.incorrect
      = st.stats.correct + st.stats.incorrect := by
  cases gen <;> simp [stepBot, answer_query]

theorem foldl_fb_sum (evs : List BotEvent) :
    ∀ st : BotState,
      (evs.foldl stepBot st).stats.correct + (evs.foldl stepBot st).stats.incorrect
        = st.stats.correct + st.stats.incorrect + countFb evs := by
  induction evs with
  | nil => intro st; simp [countFb]
  | cons ev evs ih =>
    intro st
    cases ev with
    | message q ctx page gen =>
      rw [List.foldl_cons, ih, stepBot_msg_sum]
      simp [countFb]
    | feedback d =>
      rw [List.foldl_cons, ih, stepBot_fb_sum]
      simp [countFb]
      omega

/-- C2 amended: after every interleaving of answer-recording and feedback
events from the initial state, `Stats.total` equals the length of the QA
log, but `Stats.correct + Stats.incorrect` equals the number of feedback
events processed — which is not bounded by `Stats.total`, since a feedback
event on an already-rated record or on an empty log still increments the
counters. -/
theorem ledger_total_and_feedback_count (evs : List BotEvent) :
    (runBot evs).stats.total = (runBot evs).qa_log.length ∧
    (runBot evs).stats.correct + (runBot evs).stats.incorrect = countFb evs := by
  refine ⟨foldl_total evs initBot rfl, ?_⟩
  simpa [initBot] using foldl_fb_sum evs initBot

end TelegramRAGBot

namespace LLMPipeline

theorem promptLit_split :
    ("Use the following context extracted from the document to answer the question.\nIf the answer is not contained in the context, say \"I don\x27t know.\"\n\nContext:\n" : String)
      = "Use the following context extracted from the document to answer the question.\n"
          ++ dontKnowInstruction ++ "\n\nContext:\n" := rfl

/-- C10: for every query string and every context string, the grounding
prompt handed to the generator contains the fixed do-not-fabricate
instruction, the context verbatim, and the query verbatim — the instruction
is present unconditionally, not only for an empty context. -/
theorem prompt_contains_instruction_context_query (query context : String) :
    (∃ a b, generate_answer_prompt query context = a ++ dontKnowInstruction ++ b) ∧
    (∃ a b, generate_answer_prompt query context = a ++ context ++ b) ∧
    (∃ a b, generate_answer_prompt query context = a ++ query ++ b) := by
  refine ⟨⟨"Use the following context extracted from the document to answer the question.\n",
      "\n\nContext:\n" ++ context ++ "\n\nQuestion:\n" ++ query ++ "\n\nAnswer:", ?_⟩,
    ⟨"Use the following context extracted from the document to answer the question.\nIf the answer is not contained in the context, say \"I don\x27t know.\"\n\nContext:\n",
      "\n\nQuestion:\n" ++ query ++ "\n\nAnswer:", ?_⟩,
    ⟨"Use the following context extracted from the document to answer the question.\nIf the answer is not contained in the context, say \"I don\x27t know.\"\n\nContext:\n"
        ++ context ++ "\n\nQuestion:\n",
      "\n\nAnswer:", ?_⟩⟩
  · rw [generate_answer_prompt, promptLit_split]
    simp [String.append_assoc]
  · rw [generate_answer_prompt]
    simp [String.append_assoc]
  · rw [generate_answer_prompt]

end LLMPipeline

namespace PDFRAGPipeline

/-- C5 counterexample: a page whose extracted text is whitespace-only is not
dropped by `extract_pages` — the truthiness check `if text:` precedes
`strip()`, so the page is emitted, carrying the empty string as its stored
text. -/
theorem whitespace_page_emitted_counterexample :
    pyStrip "   " = "" ∧
    extract_pages_list [some "   "] = [{ page := 1, text := "" }] :=
  ⟨rfl, rfl⟩

theorem chunkLoopFuel_mem {cs step : Nat} {words : List String} :
    ∀ {fuel start : Nat} {ts : List String},
      chunkLoopFuel cs step words fuel start = some ts →
      ∀ t ∈ ts, ∃ s, t = " ".intercalate ((words.drop s).take cs) := by
  intro fuel
  induction fuel with
  | zero => intro start ts h; simp [chunkLoopFuel] at h
  | succ n ih =>
    intro start ts h t ht
    rw [chunkLoopFuel] at h
    by_cases hs : start < words.length
    · rw [if_pos hs] at h
      cases hrec : chunkLoopFuel cs step words n (start + step) with
      | none => rw [hrec] at h; simp at h
      | some rest =>
        rw [hrec] at h
        simp only [Option.some.injEq] at h
        subst h
        by_cases h20 :
            (" ".intercalate ((words.drop start).take cs)).length > 20
        · rw [if_pos h20] at ht
          rcases List.mem_cons.mp ht with rfl | hmem
          · exact ⟨start, rfl⟩
          · exact ih hrec t hmem
        · rw [if_neg h20] at ht
          exact ih hrec t ht
    · rw [if_neg hs] at h
      simp only [Option.some.injEq] at h
      subst h
      simp at ht

theorem allPagesChunks_mem {cs step : Nat} :
    ∀ {ps : List Page} {l : List Chunk}, allPagesChunks cs step ps = some l →
      ∀ c ∈ l, ∃ p ∈ ps, c.page = p.page ∧
        ∃ s, c.chunk = " ".intercalate (((splitWords p.text).drop s).take cs) := by
  intro ps
  induction ps with
  | nil =>
    intro l h c hc
    simp only [allPagesChunks, Option.some.injEq] at h
    subst h
    simp at hc
  | cons p ps ih =>
    intro l h c hc
    rw [allPagesChunks] at h
    cases h1 : pageChunks cs step p with
    | none => rw [h1] at h; simp at h
    | some cp =>
      cases h2 : allPagesChunks cs step ps with
      | none => rw [h1, h2] at h; simp at h
      | some rest =>
        rw [h1, h2] at h
        simp only [Option.some.injEq] at h
        subst h
        rcases List.mem_append.mp hc with hcl | hcr
        · obtain ⟨ts, hts, hmap⟩ := Option.map_eq_some'.mp h1
          subst hmap
          obtain ⟨t, htmem, htc⟩ := List.mem_map.mp hcl
          obtain ⟨s, hst⟩ := chunkLoopFuel_mem hts t htmem
          refine ⟨p, List.mem_cons_self p ps, ?_, s, ?_⟩
          · rw [← htc]
          · rw [← htc, hst]
        · obtain ⟨p', hp', hpage, s, hs⟩ := ih h2 c hcr
          exact ⟨p', List.mem_cons_of_mem p hp', hpage, s, hs⟩

/-- C5 amended: `extract_pages` (pdfplumber; `extract_pages_pypdf2` has the
same loop shape) drops exactly the pages whose raw extracted text is `None`
or the empty string — a whitespace-only page survives, stored with empty
text — and every surviving page carries its true physical 1-based page
number with its stripped text.  The pdfminer strategy strips before
testing, so it does drop whitespace-only segments, each surviving page
keeping its 1-based position among the form-feed-split segments.  Every
chunk's `page` field equals the `page` number of the page whose words it
was sliced from. -/
theorem extraction_page_fidelity (raw : List (Option String)) (full_text : String) :
    (∀ p ∈ extract_pages_list raw,
        ∃ s, raw[p.page - 1]? = some (some s) ∧ s ≠ "" ∧ p.text = pyStrip s) ∧
    (∀ (i : Nat) (s : String), raw[i]? = some (some s) → s ≠ "" →
        ∃ p ∈ extract_pages_list raw, p.page = i + 1 ∧ p.text = pyStrip s) ∧
    (∀ p ∈ extract_pages_pdfminer_list full_text,
        ∃ seg, (splitFFAux full_text.toList [])[p.page - 1]? = some seg ∧
          pyStrip seg ≠ "" ∧ p.text = pyStrip seg) ∧
    (∀ (st : PipelineState) (ps : List Page) (res : PipelineState × List Chunk),
        st.pages = some ps → split_pages st = some res →
        ∀ c ∈ res.2, ∃ p ∈ ps, c.page = p.page ∧
          ∃ s, c.chunk = " ".intercalate
            (((splitWords p.text).drop s).take st.chunk_size)) := by
  refine ⟨?_, ?_, ?_, ?_⟩
  · intro p hp
    obtain ⟨pr, hpr, hf⟩ := List.mem_filterMap.mp hp
    obtain ⟨i, t⟩ := pr
    have hget := List.mem_enum_iff_getElem?.mp hpr
    cases t with
    | none => simp at hf
    | some s =>
      by_cases hs : s = ""
      · simp [hs] at hf
      · simp only [hs, if_false] at hf
        simp only [Option.some.injEq] at hf
        subst hf
        exact ⟨s, by simpa using hget, hs, rfl⟩
  · intro i s hi hs
    refine ⟨{ page := i + 1, text := pyStrip s }, ?_, rfl, rfl⟩
    refine List.mem_filterMap.mpr ⟨(i, some s), ?_, ?_⟩
    · exact List.mem_enum_iff_getElem?.mpr hi
    · simp [hs]
  · intro p hp
    obtain ⟨pr, hpr, hf⟩ := List.mem_filterMap.mp hp
    obtain ⟨i, seg⟩ := pr
    have hget := List.mem_enum_iff_getElem?.mp hpr
    simp only at hf
    by_cases hseg : pyStrip seg = ""
    · simp [hseg] at hf
    · rw [if_neg hseg] at hf
      simp only [Option.some.injEq] at hf
      subst hf
      exact ⟨seg, by simpa using hget, hseg, rfl⟩
  · intro st ps res hp hsplit c hc
    rw [split_pages] at hsplit
    simp only [hp, Option.isNone_some, Bool.false_eq_true, if_false,
      Option.getD_some] at hsplit
    cases hall : allPagesChunks st.chunk_size (st.chunk_size - st.overlap) ps with
    | none => rw [hall] at hsplit; simp at hsplit
    | some l =>
      rw [hall] at hsplit
      simp only [Option.some.injEq] at hsplit
      have hres2 : res.2 = l := by rw [← hsplit]
      rw [hres2] at hc
      exact allPagesChunks_mem hall c hc

theorem extraction_page_fidelity_witness :
    (∀ p ∈ extract_pages_list [none, some "", some "  x  "],
        ∃ s, [none, some "", some "  x  "][p.page - 1]? = some (some s) ∧
          s ≠ "" ∧ p.text = pyStrip s) ∧
    (∀ (i : Nat) (s : String),
        ([none, some "", some "  x  "] : List (Option String))[i]? = some (some s) →
        s ≠ "" →
        ∃ p ∈ extract_pages_list [none, some "", some "  x  "],
          p.page = i + 1 ∧ p.text = pyStrip s) ∧
    (∀ p ∈ extract_pages_pdfminer_list "a",
        ∃ seg, (splitFFAux ("a" : String).toList [])[p.page - 1]? = some seg ∧
          pyStrip seg ≠ "" ∧ p.text = pyStrip seg) ∧
    (∀ (st : PipelineState) (ps : List Page) (res : PipelineState × List Chunk),
        st.pages = some ps → split_pages st = some res →
        ∀ c ∈ res.2, ∃ p ∈ ps, c.page = p.page ∧
          ∃ s, c.chunk = " ".intercalate
            (((splitWords p.text).drop s).take st.chunk_size)) :=
  extraction_page_fidelity [none, some "", some "  x  "] "a"

end PDFRAGPipeline

namespace PDFRAGPipeline

/-- C6 counterexample: the constructor accepts window 3 with overlap 5 —
no configuration error is raised (`__init__` has no error path) — and
chunking then runs with step `3 − 5 ≤ 0`: the `while` loop never terminates
(here: fuel runs out for every fuel, `split_pages = none`), rather than
rejecting before any chunking work. -/
theorem invalid_config_accepted_counterexample :
    init stBadConfig.raw 3 5 = .ok stBadConfig ∧
    stBadConfig.chunk_size < stBadConfig.overlap ∧
    split_pages stBadConfig = none :=
  ⟨rfl, by decide, rfl⟩

theorem chunkLoopFuel_step_zero {cs : Nat} {words : List String} :
    ∀ (fuel start : Nat), start < words.length →
      chunkLoopFuel cs 0 words fuel start = none := by
  intro fuel
  induction fuel with
  | zero => intro start h; rfl
  | succ n ih =>
    intro start h
    rw [chunkLoopFuel, if_pos h, Nat.add_zero, ih start h]

theorem allPagesChunks_none {cs step : Nat} {ps : List Page} {p : Page}
    (hp : p ∈ ps) (hnone : pageChunks cs step p = none) :
    allPagesChunks cs step ps = none := by
  induction ps with
  | nil => simp at hp
  | cons q ps ih =>
    rw [allPagesChunks]
    rcases List.mem_cons.mp hp with rfl | hmem
    · rw [hnone]
    · cases h1 : pageChunks cs step q with
      | none => rfl
      | some cq => rw [ih hmem]

/-- C6 amended: the constructor performs no validation and accepts any
(window, overlap) pair without a configuration error; when
`overlap ≥ window` and some already-extracted page has at least one word,
the chunking loop never terminates (`split_pages = none` for every fuel),
instead of rejecting before chunking starts. -/
theorem invalid_config_behavior (st : PipelineState) (ps : List Page) (p : Page)
    (hov : st.chunk_size ≤ st.overlap) (hp : st.pages = some ps)
    (hmem : p ∈ ps) (hw : splitWords p.text ≠ []) :
    (init st.raw st.chunk_size st.overlap).isOk = true ∧
    split_pages st = none := by
  refine ⟨rfl, ?_⟩
  have hstep : st.chunk_size - st.overlap = 0 := by omega
  have hwlen : 0 < (splitWords p.text).length := List.length_pos.mpr hw
  have hdiv : pageChunks st.chunk_size 0 p = none := by
    rw [pageChunks]
    rw [chunkLoopFuel_step_zero _ 0 hwlen]
    rfl
  rw [split_pages]
  simp only [hp, Option.isNone_some, Bool.false_eq_true, if_false,
    Option.getD_some, hstep]
  rw [allPagesChunks_none hmem hdiv]

theorem invalid_config_behavior_witness :
    (stBadConfigPages.chunk_size ≤ stBadConfigPages.overlap ∧
     stBadConfigPages.pages =
       some [{ page := 1, text := "alpha beta gamma delta epsilon words enough" }] ∧
     ({ page := 1, text := "alpha beta gamma delta epsilon words enough" } : Page) ∈
       [{ page := 1, text := "alpha beta gamma delta epsilon words enough" }] ∧
     splitWords "alpha beta gamma delta epsilon words enough" ≠ []) ∧
    ((init stBadConfigPages.raw stBadConfigPages.chunk_size
        stBadConfigPages.overlap).isOk = true ∧
     split_pages stBadConfigPages = none) :=
  ⟨⟨by decide, rfl, by decide, by decide⟩,
    invalid_config_behavior stBadConfigPages
      [{ page := 1, text := "alpha beta gamma delta epsilon words enough" }]
      { page := 1, text := "alpha beta gamma delta epsilon words enough" }
      (by decide) rfl (by decide) (by decide)⟩

end PDFRAGPipeline

namespace PDFRAGPipeline

theorem chunkLoopFuel_eq_spec (cs step : Nat) (hstep : 0 < step)
    (words : List String) :
    ∀ (fuel start : Nat), words.length - start < fuel →
      chunkLoopFuel cs step words fuel start =
        some (((specOffsets step words.length hstep start).map
            (fun s => " ".intercalate ((words.drop s).take cs))).filter
          (fun t => t.length > 20)) := by
  intro fuel
  induction fuel with
  | zero => intro start h; omega
  | succ n ih =>
    intro start h
    rw [chunkLoopFuel]
    by_cases hs : start < words.length
    · rw [if_pos hs, ih (start + step) (by omega)]
      conv_rhs => rw [specOffsets]
      rw [if_pos hs]
      simp [List.filter_cons]
    · rw [if_neg hs]
      rw [specOffsets, if_neg hs]
      simp

theorem pageChunks_spec (ww ow : Nat) (how : ow < ww) (p : Page) :
    pageChunks ww (ww - ow) p =
      some ((specWindows ww ow how p.text).map
        (fun t => { page := p.page, chunk := t })) := by
  rw [pageChunks]
  rw [chunkLoopFuel_eq_spec ww (ww - ow) (by omega) (splitWords p.text)
    ((splitWords p.text).length + 1) 0 (by omega)]
  rfl

/-- C3: for every already-extracted page sequence and every configuration
with `overlap < window`, `split_pages` computes exactly the chunks the spec
describes — windows of `window` words at offsets `0, step, 2·step, ...`
with `step = window − overlap`, stopping when the window start reaches the
word count of the whitespace-split page text, each window joined with
single spaces, keeping only chunks longer than 20 characters, in
left-to-right order within a page and page-major order globally. -/
theorem split_pages_matches_spec_windows (st : PipelineState) (ps : List Page)
    (how : st.overlap < st.chunk_size) (hp : st.pages = some ps) :
    split_pages st =
      some ({ st with chunks := some (specChunks st.chunk_size st.overlap how ps) },
        specChunks st.chunk_size st.overlap how ps) := by
  rw [split_pages]
  simp only [hp, Option.isNone_some, Bool.false_eq_true, if_false,
    Option.getD_some]
  have hall : ∀ qs : List Page,
      allPagesChunks st.chunk_size (st.chunk_size - st.overlap) qs
        = some (specChunks st.chunk_size st.overlap how qs) := by
    intro qs
    induction qs with
    | nil => rfl
    | cons q qs ih =>
      rw [allPagesChunks, pageChunks_spec st.chunk_size st.overlap how q, ih]
      simp [specChunks]
  rw [hall ps]

theorem split_pages_matches_spec_windows_witness :
    (stScenarioC.overlap < stScenarioC.chunk_size ∧
     stScenarioC.pages = some [pageScenarioC]) ∧
    split_pages stScenarioC =
      some ({ stScenarioC with
                chunks := some (specChunks stScenarioC.chunk_size
                  stScenarioC.overlap (by decide) [pageScenarioC]) },
        specChunks stScenarioC.chunk_size stScenarioC.overlap (by decide)
          [pageScenarioC]) ∧
    split_pages stScenarioC =
      some ({ stScenarioC with
                chunks := some
                  [{ page := 1, chunk := "aaaaaaaaaa bbbbbbbbbb cccccccccc" },
                   { page := 1, chunk := "cccccccccc dddddddddd eeeeeeeeee" }] },
        [{ page := 1, chunk := "aaaaaaaaaa bbbbbbbbbb cccccccccc" },
         { page := 1, chunk := "cccccccccc dddddddddd eeeeeeeeee" }]) :=
  ⟨⟨by decide, rfl⟩,
    split_pages_matches_spec_windows stScenarioC [pageScenarioC] (by decide) rfl,
    rfl⟩

end PDFRAGPipeline

namespace PDFRAGPipeline

theorem pyArgsortDesc_sorted (scores : List ℚ) :
    List.Pairwise (fun i j => scores.getD j 0 < scores.getD i 0 ∨
      (scores.getD i 0 = scores.getD j 0 ∧ i ≤ j)) (pyArgsortDesc scores) := by
  unfold pyArgsortDesc
  refine List.Pairwise.imp (fun hab => of_decide_eq_true hab)
    (List.sorted_mergeSort ?_ ?_ (List.range scores.length))
  · intro a b c h1 h2
    rw [decide_eq_true_eq] at h1 h2 ⊢
    rcases h1 with h1 | ⟨e1, le1⟩ <;> rcases h2 with h2 | ⟨e2, le2⟩
    · exact Or.inl (lt_trans h2 h1)
    · exact Or.inl (e2 ▸ h1)
    · exact Or.inl (e1 ▸ h2)
    · exact Or.inr ⟨e1.trans e2, le1.trans le2⟩
  · intro a b
    rw [Bool.or_eq_true, decide_eq_true_eq, decide_eq_true_eq]
    rcases lt_trichotomy (scores.getD a 0) (scores.getD b 0) with h | h | h
    · exact Or.inr (Or.inl h)
    · rcases Nat.le_total a b with hab | hab
      · exact Or.inl (Or.inr ⟨h, hab⟩)
      · exact Or.inr (Or.inr ⟨h.symm, hab⟩)
    · exact Or.inl (Or.inl h)

theorem pyArgsortDesc_mem {scores : List ℚ} {i : Nat}
    (h : i ∈ pyArgsortDesc scores) : i < scores.length :=
  List.mem_range.mp ((List.mergeSort_perm (List.range scores.length) _).mem_iff.mp h)

/-- C4: over a built index whose corpus matches the stored chunks, `search`
returns exactly `min(top_k, n)` results — the chunks at the first `top_k`
positions of the index argsort — and along those positions the scores are
non-increasing, equal scores resolving by ascending chunk index. -/
theorem search_ranking_monotone (scoreDoc : List String → List String → ℚ)
    (st : PipelineState) (cs : List Chunk) (ix : List (List String))
    (q : String) (k : Nat)
    (hch : st.chunks = some cs) (hbm : st.bm25 = some ix)
    (hlen : ix.length = cs.length) :
    search_query scoreDoc st q k =
      some (st, ((pyArgsortDesc (ix.map (scoreDoc (splitWords q)))).take k).map
        (fun i => cs.getD i { page := 0, chunk := "" })) ∧
    ((pyArgsortDesc (ix.map (scoreDoc (splitWords q)))).take k).length
      = min k cs.length ∧
    List.Pairwise (fun i j =>
        (ix.map (scoreDoc (splitWords q))).getD j 0
            < (ix.map (scoreDoc (splitWords q))).getD i 0 ∨
        ((ix.map (scoreDoc (splitWords q))).getD i 0
            = (ix.map (scoreDoc (splitWords q))).getD j 0 ∧ i ≤ j))
      ((pyArgsortDesc (ix.map (scoreDoc (splitWords q)))).take k) := by
  refine ⟨?_, ?_, ?_⟩
  · simp [search_query, hbm, hch]
  · rw [List.length_take]
    unfold pyArgsortDesc
    rw [List.length_mergeSort, List.length_range, List.length_map, hlen]
  · exact List.Pairwise.sublist (List.take_sublist k _) (pyArgsortDesc_sorted _)

theorem search_ranking_monotone_witness :
    (stSearch.chunks = some [{ page := 1, chunk := "aaa" }, { page := 2, chunk := "bbb" }] ∧
     stSearch.bm25 = some [["aaa"], ["bbb"]] ∧
     ([["aaa"], ["bbb"]] : List (List String)).length =
       ([{ page := 1, chunk := "aaa" }, { page := 2, chunk := "bbb" }] : List Chunk).length) ∧
    (search_query (fun _ _ => (0 : ℚ)) stSearch "q" 1 =
      some (stSearch,
        ((pyArgsortDesc (([["aaa"], ["bbb"]] : List (List String)).map
            ((fun _ _ => (0 : ℚ)) (splitWords "q")))).take 1).map
          (fun i => ([{ page := 1, chunk := "aaa" }, { page := 2, chunk := "bbb" }] : List Chunk).getD i
            { page := 0, chunk := "" })) ∧
     ((pyArgsortDesc (([["aaa"], ["bbb"]] : List (List String)).map
         ((fun _ _ => (0 : ℚ)) (splitWords "q")))).take 1).length =
       min 1 ([{ page := 1, chunk := "aaa" }, { page := 2, chunk := "bbb" }] : List Chunk).length ∧
     List.Pairwise (fun i j =>
         (([["aaa"], ["bbb"]] : List (List String)).map
             ((fun _ _ => (0 : ℚ)) (splitWords "q"))).getD j 0
           < (([["aaa"], ["bbb"]] : List (List String)).map
               ((fun _ _ => (0 : ℚ)) (splitWords "q"))).getD i 0 ∨
         ((([["aaa"], ["bbb"]] : List (List String)).map
             ((fun _ _ => (0 : ℚ)) (splitWords "q"))).getD i 0
           = (([["aaa"], ["bbb"]] : List (List String)).map
               ((fun _ _ => (0 : ℚ)) (splitWords "q"))).getD j 0 ∧ i ≤ j))
       ((pyArgsortDesc (([["aaa"], ["bbb"]] : List (List String)).map
           ((fun _ _ => (0 : ℚ)) (splitWords "q")))).take 1)) :=
  ⟨⟨rfl, rfl, rfl⟩,
    search_ranking_monotone (fun _ _ => (0 : ℚ)) stSearch
      [{ page := 1, chunk := "aaa" }, { page := 2, chunk := "bbb" }]
      [["aaa"], ["bbb"]] "q" 1 rfl rfl rfl⟩

/-- C9: given pages, chunks and the index are already built (and the index
matches the stored corpus), `search` leaves the pipeline state unchanged —
it returns the very same state — and every returned result is an element of
the stored chunk list. -/
theorem search_readonly_from_corpus (scoreDoc : List String → List String → ℚ)
    (st : PipelineState) (cs : List Chunk) (ix : List (List String))
    (q : String) (k : Nat)
    (hch : st.chunks = some cs) (hbm : st.bm25 = some ix)
    (hlen : ix.length = cs.length) :
    ∃ res, search_query scoreDoc st q k = some (st, res) ∧ ∀ c ∈ res, c ∈ cs := by
  refine ⟨((pyArgsortDesc (ix.map (scoreDoc (splitWords q)))).take k).map
    (fun i => cs.getD i { page := 0, chunk := "" }), ?_, ?_⟩
  · simp [search_query, hbm, hch]
  · intro c hc
    obtain ⟨i, hi, hci⟩ := List.mem_map.mp hc
    have hmem : i ∈ pyArgsortDesc (ix.map (scoreDoc (splitWords q))) :=
      List.mem_of_mem_take hi
    have hlt : i < (ix.map (scoreDoc (splitWords q))).length := pyArgsortDesc_mem hmem
    rw [List.length_map, hlen] at hlt
    have hgd : cs.getD i { page := 0, chunk := "" } = cs[i] := by
      rw [List.getD_eq_getElem?_getD, List.getElem?_eq_getElem hlt]
      rfl
    rw [← hci, hgd]
    exact List.getElem_mem hlt

theorem search_readonly_from_corpus_witness :
    (stSearch.chunks = some [{ page := 1, chunk := "aaa" }, { page := 2, chunk := "bbb" }] ∧
     stSearch.bm25 = some [["aaa"], ["bbb"]] ∧
     ([["aaa"], ["bbb"]] : List (List String)).length =
       ([{ page := 1, chunk := "aaa" }, { page := 2, chunk := "bbb" }] : List Chunk).length) ∧
    (∃ res, search_query (fun _ d => if d = ["aaa"] then (1 : ℚ) else 2) stSearch "hello" 5 =
        some (stSearch, res) ∧
      ∀ c ∈ res, c ∈ ([{ page := 1, chunk := "aaa" }, { page := 2, chunk := "bbb" }] : List Chunk)) :=
  ⟨⟨rfl, rfl, rfl⟩,
    search_readonly_from_corpus (fun _ d => if d = ["aaa"] then (1 : ℚ) else 2)
      stSearch [{ page := 1, chunk := "aaa" }, { page := 2, chunk := "bbb" }]
      [["aaa"], ["bbb"]] "hello" 5 rfl rfl rfl⟩

end PDFRAGPipeline
